import Mathlib

/-!
# LifeRPG progression engine: a shallow embedding

This file embeds the progression engine of the LifeRPG habit tracker
(the logic helpers, constants and the activity-log / custom-activity /
date-check state transitions of the single source file) into Lean and
proves the properties claimed of it.

Modelling conventions, stated once:

* All JavaScript numbers that the engine actually produces on its
  wired-up inputs are non-negative integers; they are embedded as `ℕ`.
* `Math.pow`-based leveling math is embedded in exact integer
  arithmetic: `Math.floor(100 * Math.pow(L, 1.5))` equals
  `Nat.sqrt (100^2 * L^3)` (the floor of the real square root of
  `10000·L³`), and `Math.floor(Math.pow(xp / 100, 1/1.5)) + 1` equals
  `icbrt (xp^2 / 100^2) + 1`, where `icbrt n` is the integer cube root
  (the greatest `k` with `k³ ≤ n`); the quotient `xp^2 / 100^2` is
  natural division, sound because `k³ ≤ x²/10⁴` iff `10⁴·k³ ≤ x²`.
* `Math.random()` draws are inputs of the transition, each modelled as
  an exact fraction `num/den` in `[0,1)` (structure `Frac`); `r < 0.10`
  becomes the exact cross-multiplication comparison with `10/100`, and
  `Math.floor(r * n)` becomes `r.num * n / r.den`.
* Calendar strings (`formatDate`) are opaque `String` inputs; the
  JavaScript `<` comparison on date strings is the code-unit
  lexicographic order `strLt`; `new Date(ts).getHours()` is an input
  `hour` of the transition.
* `Math.round(x)` for the non-negative `x = a / b` produced by
  `calculateXP` is `⌊x + 1/2⌋ = (2a + b) / (2b)` in natural division.
-/

/-! ## Leveling math (source: `LEVEL_BASE`, `LEVEL_MULTIPLIER`,
`getXPForLevel`, `getLevelFromXP`) -/

def LEVEL_BASE : ℕ := 100

/-- `getXPForLevel(level) = Math.floor(LEVEL_BASE * Math.pow(level, 1.5))`,
embedded exactly: `⌊100·L^(3/2)⌋ = ⌊√(10000·L³)⌋ = Nat.sqrt (10000·L³)`. -/
def getXPForLevel (level : ℕ) : ℕ := Nat.sqrt (LEVEL_BASE ^ 2 * level ^ 3)

/-- Integer cube root: the greatest `k` with `k³ ≤ n`. -/
def icbrt (n : ℕ) : ℕ := Nat.findGreatest (fun k => k ^ 3 ≤ n) n

/-- `getLevelFromXP(xp) = Math.floor(Math.pow(xp / LEVEL_BASE, 1/1.5)) + 1`,
embedded exactly: `⌊(xp/100)^(2/3)⌋ + 1 = icbrt (xp²/10⁴) + 1`. -/
def getLevelFromXP (xp : ℕ) : ℕ := icbrt (xp ^ 2 / LEVEL_BASE ^ 2) + 1

/-! ## Data model (source: the type declarations at the top of the file) -/

inductive StatType
  | Strength
  | Knowledge
  | Wealth
  | Mind
  | Discipline
deriving DecidableEq, Repr

structure Stats where
  Strength : ℕ
  Knowledge : ℕ
  Wealth : ℕ
  Mind : ℕ
  Discipline : ℕ
deriving DecidableEq, Repr

/-- `newStats[stat] += amt` for the record-of-stats embedding. -/
def addStat (s : Stats) (st : StatType) (amt : ℕ) : Stats :=
  match st with
  | .Strength => { s with Strength := s.Strength + amt }
  | .Knowledge => { s with Knowledge := s.Knowledge + amt }
  | .Wealth => { s with Wealth := s.Wealth + amt }
  | .Mind => { s with Mind := s.Mind + amt }
  | .Discipline => { s with Discipline := s.Discipline + amt }

/-- An activity log entry; `id` is `Date.now().toString()` in the source and
is modelled by the numeric timestamp. -/
structure Log where
  id : ℕ
  activityType : String
  durationMinutes : ℕ
  xpEarned : ℕ
  timestamp : ℕ
  dateStr : String
  isCritical : Bool
deriving DecidableEq, Repr

structure CustomActivity where
  id : String
  name : String
  stat : StatType
  iconKey : String
  color : String
  baseXP : ℕ
  baseDuration : ℕ
deriving DecidableEq, Repr

structure DailyQuestState where
  dateStr : String
  completed : List String
  bonusClaimed : Bool
deriving DecidableEq, Repr

structure UserState where
  level : ℕ
  currentXP : ℕ
  totalXP : ℕ
  stats : Stats
  logs : List Log
  streak : ℕ
  lastLoginDate : String
  unlockedAchievements : List String
  dailyQuests : DailyQuestState
  inventory : List String
  customActivities : List CustomActivity
deriving DecidableEq, Repr

inductive RewardType
  | CRITICAL
  | BONUS
  | ITEM
  | LEVEL_UP
  | QUEST_COMPLETE
deriving DecidableEq, Repr

structure RewardEvent where
  type : RewardType
  message : String
  xp : Option ℕ
  item : Option String
deriving DecidableEq, Repr

/-- A built-in activity entry, or a custom one mapped into the same shape
(the `allActivities` memo). -/
structure ActivityDef where
  type : String
  iconKey : String
  stat : StatType
  color : String
  baseXP : ℕ
  baseDuration : ℕ
deriving DecidableEq, Repr

def DEFAULT_ACTIVITIES : List ActivityDef :=
  [⟨"Workout", "Dumbbell", .Strength, "text-red-500", 40, 30⟩,
   ⟨"Reading", "BookOpen", .Knowledge, "text-blue-500", 25, 30⟩,
   ⟨"Work/Study", "Briefcase", .Wealth, "text-yellow-500", 50, 60⟩,
   ⟨"Meditation", "Brain", .Mind, "text-purple-500", 20, 15⟩,
   ⟨"Skill Learning", "Zap", .Knowledge, "text-cyan-500", 45, 30⟩]

structure QuestDef where
  type : String
  label : String
deriving DecidableEq, Repr

def DAILY_QUESTS : List QuestDef :=
  [⟨"Workout", "Body Quest"⟩,
   ⟨"Reading", "Knowledge Quest"⟩,
   ⟨"Work/Study", "Work Quest"⟩,
   ⟨"Meditation", "Mind Quest"⟩]

def LOOT_TABLE : List String :=
  ["Potion of Focus",
   "Scroll of Wisdom",
   "Dumbbell of Giants",
   "Coin of Discipline",
   "Timekeeper\x27s Hourglass",
   "Meditative Gem"]

/-- An achievement: its pure predicate takes the tentative state and the new
log entry as in the source, plus two environment readings the source takes
from `Date` inside the predicates: today's date string (used by
`daily_grind`) and the local-time hour of the new log's timestamp (used by
`early_riser`). -/
structure Achievement where
  id : String
  title : String
  condition : UserState → Option Log → String → ℕ → Bool

def ACHIEVEMENTS_LIST : List Achievement :=
  [⟨"first_step", "First Step", fun state _ _ _ => decide (1 ≤ state.logs.length)⟩,
   ⟨"streak_7", "On Fire", fun state _ _ _ => decide (7 ≤ state.streak)⟩,
   ⟨"reader", "Bookworm", fun state _ _ _ =>
     decide (30 * 60 ≤ (state.logs.filter (fun l => l.activityType == "Reading")).foldl
       (fun acc curr => acc + curr.durationMinutes) 0)⟩,
   ⟨"daily_grind", "Daily Grind", fun state newLog todayStr _ =>
     match newLog with
     | none => false
     | some _ => decide (100 ≤ (state.logs.filter (fun l => l.dateStr == todayStr)).foldl
         (fun acc curr => acc + curr.xpEarned) 0)⟩,
   ⟨"early_riser", "Early Riser", fun _ newLog _ hour =>
     match newLog with
     | none => false
     | some _ => decide (hour < 8 ∧ 4 ≤ hour)⟩]

def INITIAL_STATE : UserState :=
  { level := 1
    currentXP := 0
    totalXP := 0
    stats := ⟨0, 0, 0, 0, 0⟩
    logs := []
    streak := 0
    lastLoginDate := ""
    unlockedAchievements := []
    dailyQuests := ⟨"", [], false⟩
    inventory := []
    customActivities := [] }

/-! ## Logic helpers and the randomness / date inputs -/

/-- `calculateXP(baseXP, baseDuration, duration) =
Math.round(baseXP * (duration / baseDuration))`; for the non-negative
operands here `Math.round(a/b) = ⌊a/b + 1/2⌋ = (2a + b) / (2b)`. -/
def calculateXP (baseXP baseDuration duration : ℕ) : ℕ :=
  (2 * (baseXP * duration) + baseDuration) / (2 * baseDuration)

/-- An exact fraction standing for one `Math.random()` draw in `[0,1)`. -/
structure Frac where
  num : ℕ
  den : ℕ
deriving DecidableEq, Repr

/-- Exact comparison `a < b` of fractions by cross-multiplication. -/
def Frac.lt (a b : Frac) : Bool := decide (a.num * b.den < b.num * a.den)

/-- `Math.floor(a * n)` for a fraction `a ≥ 0`. -/
def Frac.floorMul (a : Frac) (n : ℕ) : ℕ := a.num * n / a.den

/-- The draw lies in `[0,1)`. -/
def Frac.Valid (a : Frac) : Prop := 0 < a.den ∧ a.num < a.den

/-- The three `Math.random()` draws a single `handleLogActivity` call can
consume: the classification roll, the bonus-amount roll, the loot-index
roll. -/
structure RollInput where
  roll : Frac
  bonusRoll : Frac
  lootRoll : Frac
deriving DecidableEq, Repr

def RollInput.Valid (r : RollInput) : Prop :=
  r.roll.Valid ∧ r.bonusRoll.Valid ∧ r.lootRoll.Valid

instance Frac.decValid (a : Frac) : Decidable a.Valid :=
  inferInstanceAs (Decidable (0 < a.den ∧ a.num < a.den))

instance RollInput.decValid (r : RollInput) : Decidable r.Valid :=
  inferInstanceAs (Decidable (r.roll.Valid ∧ r.bonusRoll.Valid ∧ r.lootRoll.Valid))

/-- JavaScript `<` on strings: lexicographic comparison of code units. -/
def charListLt : List Char → List Char → Bool
  | [], [] => false
  | [], _ :: _ => true
  | _ :: _, [] => false
  | a :: as, b :: bs =>
    if a.toNat < b.toNat then true
    else if b.toNat < a.toNat then false
    else charListLt as bs

def strLt (a b : String) : Bool := charListLt a.data b.data

/-! ## The engine transitions (source: `App`) -/

/-- Source lines 452–467, the `--- Random Rewards ---` block: starting from
`baseXP`, returns the rolled XP total, the critical flag, and the emitted
events. `0.10 / 0.25 / 0.30` are the exact fractions `10/100`, `25/100`,
`30/100`. -/
def rollRewards (baseXP : ℕ) (rng : RollInput) : ℕ × Bool × List RewardEvent :=
  if rng.roll.lt ⟨10, 100⟩ then
    (baseXP * 2, true,
      [⟨RewardType.CRITICAL, "Critical Success! XP Doubled!", some (baseXP * 2), none⟩])
  else if rng.roll.lt ⟨25, 100⟩ then
    let bonus := rng.bonusRoll.floorMul 20 + 10
    (baseXP + bonus, false, [⟨RewardType.BONUS, "Bonus Focus!", some bonus, none⟩])
  else if rng.roll.lt ⟨30, 100⟩ then
    let item := LOOT_TABLE.getD (rng.lootRoll.floorMul LOOT_TABLE.length) ""
    (baseXP, false, [⟨RewardType.ITEM, "You found an item!", none, some item⟩])
  else (baseXP, false, [])

/-- Source lines 469–482, the `--- Streak Logic ---` block: returns the new
streak, the XP bonus added to the running total, and the emitted events. -/
def streakUpdate (streak : ℕ) (lastLoginDate todayStr yesterday : String) :
    ℕ × ℕ × List RewardEvent :=
  if lastLoginDate ≠ todayStr then
    let newStreak := if lastLoginDate = yesterday then streak + 1 else 1
    if 0 < newStreak ∧ newStreak % 7 = 0 then
      (newStreak, 100, [⟨RewardType.BONUS, "7 Day Streak Bonus!", some 100, none⟩])
    else (newStreak, 0, [])
  else (streak, 0, [])

/-- Source lines 484–496, the `--- Daily Quest Logic ---` block: returns the
new tracker, the XP bonus, and the emitted events. The stored tracker is
used exactly as it is: this block performs no date comparison and never
writes `dateStr`. -/
def dailyQuestUpdate (dq : DailyQuestState) (type : String) :
    DailyQuestState × ℕ × List RewardEvent :=
  if DAILY_QUESTS.any (fun q => q.type == type) && !(dq.completed.contains type) then
    let completed := dq.completed ++ [type]
    if completed.length == 4 && !dq.bonusClaimed then
      (⟨dq.dateStr, completed, true⟩, 80,
        [⟨RewardType.QUEST_COMPLETE, "Daily Quests Completed!", some 80, none⟩])
    else (⟨dq.dateStr, completed, dq.bonusClaimed⟩, 0, [])
  else (dq, 0, [])

/-- One iteration of the achievement loop (source lines 525–530): an
achievement whose id is not yet in the accumulated list and whose predicate
holds on the tentative state is appended, with one reward event. -/
def achStep (tempState : UserState) (newLog : Log) (todayStr : String) (hour : ℕ)
    (acc : List String × List RewardEvent) (ach : Achievement) :
    List String × List RewardEvent :=
  if !(acc.1.contains ach.id) && ach.condition tempState (some newLog) todayStr hour then
    (acc.1 ++ [ach.id],
      acc.2 ++ [⟨RewardType.BONUS, "Achievement: " ++ ach.title, none, none⟩])
  else acc

/-- Source lines 522–530: the achievement evaluation loop. -/
def applyAchievements (unlocked : List String) (tempState : UserState) (newLog : Log)
    (todayStr : String) (hour : ℕ) : List String × List RewardEvent :=
  ACHIEVEMENTS_LIST.foldl (achStep tempState newLog todayStr hour) (unlocked, [])

/-- The `allActivities` memo (source lines 395–405): built-ins first, then
the custom activities mapped into the same shape. -/
def allActivities (s : UserState) : List ActivityDef :=
  DEFAULT_ACTIVITIES ++ s.customActivities.map (fun c =>
    ⟨c.name, c.iconKey, c.stat, c.color, c.baseXP, c.baseDuration⟩)

/-- The body of `handleLogActivity` (source lines 447–556) once the activity
definition has been resolved. `todayStr` and `yesterday` are the
`formatDate` readings of the clock, `timestamp` is `now.getTime()` (also
used for the log id) and `hour` is the local hour of that timestamp. The
functional update `setGameState(prev => …)` is modelled with `prev` equal
to the captured `gameState`, as in the single-threaded UI. -/
def logTransition (gs : UserState) (activityDef : ActivityDef) (type : String)
    (duration : ℕ) (todayStr yesterday : String) (timestamp hour : ℕ)
    (rng : RollInput) : UserState × List RewardEvent :=
  let baseXP := calculateXP activityDef.baseXP activityDef.baseDuration duration
  let roll := rollRewards baseXP rng
  let strk := streakUpdate gs.streak gs.lastLoginDate todayStr yesterday
  let quest := dailyQuestUpdate gs.dailyQuests type
  let totalNewXP := roll.1 + strk.2.1 + quest.2.1
  let newLog : Log := ⟨timestamp, type, duration, totalNewXP, timestamp, todayStr, roll.2.1⟩
  let newStats := addStat (addStat gs.stats activityDef.stat baseXP) StatType.Discipline 5
  let newTotalXP := gs.totalXP + totalNewXP
  let newLevel := getLevelFromXP newTotalXP
  let levelEvs : List RewardEvent :=
    if gs.level < newLevel then
      [⟨RewardType.LEVEL_UP, "Level " ++ toString newLevel ++ " Reached!", none, none⟩]
    else []
  let ach := applyAchievements gs.unlockedAchievements
    { gs with logs := newLog :: gs.logs, streak := strk.1, totalXP := newTotalXP }
    newLog todayStr hour
  let newRewards := roll.2.2 ++ strk.2.2 ++ quest.2.2 ++ levelEvs ++ ach.2
  let newInventory :=
    match newRewards.find? (fun r => r.type == RewardType.ITEM) with
    | some ev =>
      match ev.item with
      | some it => gs.inventory ++ [it]
      | none => gs.inventory
    | none => gs.inventory
  ({ level := newLevel
     currentXP := gs.currentXP + totalNewXP
     totalXP := newTotalXP
     stats := newStats
     logs := newLog :: gs.logs
     streak := strk.1
     lastLoginDate := todayStr
     unlockedAchievements := ach.1
     dailyQuests := quest.1
     inventory := newInventory
     customActivities := gs.customActivities }, newRewards)

/-- Source lines 440–557: `handleLogActivity`. The only rejection is an
unresolvable activity identifier, in which case the handler returns early
with no state change (`none` here). -/
def handleLogActivity (gs : UserState) (type : String) (duration : ℕ)
    (todayStr yesterday : String) (timestamp hour : ℕ) (rng : RollInput) :
    Option (UserState × List RewardEvent) :=
  match (allActivities gs).find? (fun a => a.type == type) with
  | none => none
  | some activityDef =>
    some (logTransition gs activityDef type duration todayStr yesterday timestamp hour rng)

/-- Source lines 433–438: `handleAddCustomActivity` appends unconditionally;
there is no duplicate-identifier check anywhere in the source. -/
def handleAddCustomActivity (gs : UserState) (activity : CustomActivity) : UserState :=
  { gs with customActivities := gs.customActivities ++ [activity] }

/-- Source lines 408–424: the mount-time `Init & Date Checks` effect. The
daily-quest tracker is replaced wholesale when its stored date differs from
today, and the streak is force-reset to `0` after a multi-day absence
(JavaScript truthiness of `prev.lastLoginDate` is non-emptiness). -/
def dateCheck (prev : UserState) (today yesterday : String) : UserState :=
  let s1 := if prev.dailyQuests.dateStr ≠ today then
      { prev with dailyQuests := ⟨today, [], false⟩ } else prev
  if prev.lastLoginDate ≠ today then
    if prev.lastLoginDate != "" && strLt prev.lastLoginDate yesterday then
      { s1 with streak := 0 }
    else s1
  else s1

/-- The inputs of one UI-driven log attempt. -/
structure LogInput where
  type : String
  duration : ℕ
  todayStr : String
  yesterday : String
  timestamp : ℕ
  hour : ℕ
  rng : RollInput

/-- One log attempt as a total step: an unknown activity identifier is the
source's early `return` — no state change, no events. -/
def step (s : UserState) (i : LogInput) : UserState × List RewardEvent :=
  match handleLogActivity s i.type i.duration i.todayStr i.yesterday i.timestamp
      i.hour i.rng with
  | none => (s, [])
  | some r => r

/-- A sequence of log attempts, accumulating the emitted reward events. -/
def runLogs : UserState → List LogInput → UserState × List RewardEvent
  | s, [] => (s, [])
  | s, i :: rest =>
    let r := step s i
    let rr := runLogs r.1 rest
    (rr.1, r.2 ++ rr.2)

/-- How many events of a given tag a reward list contains. -/
def countType (t : RewardType) (evs : List RewardEvent) : ℕ :=
  (evs.filter (fun e => e.type == t)).length

/-- The exact condition under which the daily-quest block emits its
`QUEST_COMPLETE` event: the activity is one of the 4 quest types, it is not
yet in today's completed set, it is the 4th distinct one, and the bonus is
still unclaimed. -/
def questEmit (dq : DailyQuestState) (type : String) : Bool :=
  DAILY_QUESTS.any (fun q => q.type == type) && !(dq.completed.contains type) &&
    dq.completed.length == 3 && !dq.bonusClaimed

/-- Potential function for the once-per-day bonus argument. -/
def questPotential (dq : DailyQuestState) : ℕ := if dq.bonusClaimed then 0 else 1

/-! ## Concrete inputs used by witnesses and counterexamples -/

/-- A roll of `1/2 ≥ 0.30` everywhere: no random reward. -/
def rngHalf : RollInput := ⟨⟨1, 2⟩, ⟨1, 2⟩, ⟨1, 2⟩⟩

/-- A classification roll of `1/20 < 0.10`: a critical success. -/
def rng20 : RollInput := ⟨⟨1, 20⟩, ⟨1, 2⟩, ⟨1, 2⟩⟩

/-- A profile one XP short of the level-2 threshold, last logged today. -/
def state99 : UserState :=
  { INITIAL_STATE with
    currentXP := 99
    totalXP := 99
    streak := 1
    lastLoginDate := "2024-01-02"
    dailyQuests := ⟨"2024-01-02", [], false⟩ }

/-- A profile whose daily-quest tracker still carries yesterday's date. -/
def staleQuestState : UserState :=
  { INITIAL_STATE with
    lastLoginDate := "2024-01-01"
    streak := 3
    dailyQuests := ⟨"2024-01-01", ["Reading"], false⟩ }

/-- A custom activity whose identifier collides with the built-in
`"Workout"` (defaults as produced by the create-activity form). -/
def workoutCustom : CustomActivity :=
  ⟨"1700000000000", "Workout", .Strength, "Sword", "text-red-500", 30, 30⟩

/-- The daily-quest date of a log-attempt result, when it succeeded. -/
def resultQuestDate (r : Option (UserState × List RewardEvent)) : Option String :=
  r.map (fun p => p.1.dailyQuests.dateStr)

/-- The log count of a log-attempt result, when it succeeded. -/
def resultLogsCount (r : Option (UserState × List RewardEvent)) : Option ℕ :=
  r.map (fun p => p.1.logs.length)

/-- The completed-quest set of a log-attempt result, when it succeeded. -/
def resultQuestCompleted (r : Option (UserState × List RewardEvent)) :
    Option (List String) :=
  r.map (fun p => p.1.dailyQuests.completed)

/-- The built-in `"Workout"` activity definition. -/
def workoutDef : ActivityDef := ⟨"Workout", "Dumbbell", .Strength, "text-red-500", 40, 30⟩

/-- A profile that has already completed 3 of the 4 daily quests today. -/
def state3 : UserState :=
  { INITIAL_STATE with
    lastLoginDate := "2024-01-02"
    dailyQuests := ⟨"2024-01-02", ["Workout", "Reading", "Work/Study"], false⟩ }

/-- One quiet (no random reward) Meditation log attempt dated today. -/
def medInput : LogInput := ⟨"Meditation", 15, "2024-01-02", "2024-01-01", 0, 12, rngHalf⟩

/-- The state `handleLogActivity staleQuestState "Workout" 30 … rngHalf`
produces (checked definitionally where it is used). -/
def staleWorkoutResult : UserState :=
  ⟨1, 40, 40, ⟨40, 0, 0, 0, 5⟩,
   [⟨0, "Workout", 30, 40, 0, "2024-01-02", false⟩],
   4, "2024-01-02", ["first_step"],
   ⟨"2024-01-01", ["Reading", "Workout"], false⟩, [], []⟩

def staleWorkoutEvents : List RewardEvent :=
  [⟨RewardType.BONUS, "Achievement: First Step", none, none⟩]

/-- The state `handleLogActivity state99 "Meditation" 1 … rngHalf` produces. -/
def med99Result : UserState :=
  ⟨2, 100, 100, ⟨0, 0, 0, 1, 5⟩,
   [⟨0, "Meditation", 1, 1, 0, "2024-01-02", false⟩],
   1, "2024-01-02", ["first_step"],
   ⟨"2024-01-02", ["Meditation"], false⟩, [], []⟩

def med99Events : List RewardEvent :=
  [⟨RewardType.LEVEL_UP, "Level 2 Reached!", none, none⟩,
   ⟨RewardType.BONUS, "Achievement: First Step", none, none⟩]

/-- The state `handleLogActivity state3 "Meditation" 15 … rngHalf` produces. -/
def quest4Result : UserState :=
  ⟨2, 100, 100, ⟨0, 0, 0, 20, 5⟩,
   [⟨0, "Meditation", 15, 100, 0, "2024-01-02", false⟩],
   0, "2024-01-02", ["first_step", "daily_grind"],
   ⟨"2024-01-02", ["Workout", "Reading", "Work/Study", "Meditation"], true⟩, [], []⟩

def quest4Events : List RewardEvent :=
  [⟨RewardType.QUEST_COMPLETE, "Daily Quests Completed!", some 80, none⟩,
   ⟨RewardType.LEVEL_UP, "Level 2 Reached!", none, none⟩,
   ⟨RewardType.BONUS, "Achievement: First Step", none, none⟩,
   ⟨RewardType.BONUS, "Achievement: Daily Grind", none, none⟩]

lemma le_icbrt {y n : ℕ} (h : y ^ 3 ≤ n) : y ≤ icbrt n := by
  have hyn : y ≤ n := le_trans (Nat.le_self_pow (by norm_num) y) h
  exact Nat.le_findGreatest hyn h

lemma icbrt_le {y n : ℕ} (h : n < (y + 1) ^ 3) : icbrt n ≤ y := by
  unfold icbrt
  by_contra hlt
  push_neg at hlt
  have heq : Nat.findGreatest (fun k => k ^ 3 ≤ n) n =
      Nat.findGreatest (fun k => k ^ 3 ≤ n) n := rfl
  have hP : Nat.findGreatest (fun k => k ^ 3 ≤ n) n ^ 3 ≤ n :=
    (Nat.findGreatest_eq_iff.mp heq).2.1 (by omega)
  have h3 : (y + 1) ^ 3 ≤ Nat.findGreatest (fun k => k ^ 3 ≤ n) n ^ 3 :=
    Nat.pow_le_pow_left (by omega) 3
  omega

lemma icbrt_eq {n y : ℕ} (h1 : y ^ 3 ≤ n) (h2 : n < (y + 1) ^ 3) : icbrt n = y :=
  le_antisymm (icbrt_le h2) (le_icbrt h1)

lemma icbrt_cube_le {n L : ℕ} (hL : 1 ≤ L) (h : icbrt n = L) : L ^ 3 ≤ n := by
  unfold icbrt at h
  exact (Nat.findGreatest_eq_iff.mp h).2.1 (by omega)

lemma getLevelFromXP_eq {x L : ℕ} (h1 : 10000 * L ^ 3 ≤ x ^ 2)
    (h2 : x ^ 2 < 10000 * (L + 1) ^ 3) : getLevelFromXP x = L + 1 := by
  have hdef : getLevelFromXP x = icbrt (x ^ 2 / 10000) + 1 := by
    unfold getLevelFromXP LEVEL_BASE; norm_num
  rw [hdef]
  have heq : icbrt (x ^ 2 / 10000) = L := by
    apply icbrt_eq
    · exact (Nat.le_div_iff_mul_le (by norm_num)).mpr (by linarith)
    · exact (Nat.div_lt_iff_lt_mul (by norm_num)).mpr (by linarith)
  omega

lemma sqrt_eq_of {n k : ℕ} (h1 : k ^ 2 ≤ n) (h2 : n < (k + 1) ^ 2) :
    Nat.sqrt n = k :=
  le_antisymm (Nat.lt_succ_iff.mp (Nat.sqrt_lt'.mpr h2)) (Nat.le_sqrt'.mpr h1)

lemma getXPForLevel_def (L : ℕ) : getXPForLevel L = Nat.sqrt (10000 * L ^ 3) := by
  unfold getXPForLevel LEVEL_BASE; norm_num

lemma xpForLevel_sq_le (L : ℕ) : getXPForLevel L ^ 2 ≤ 10000 * L ^ 3 := by
  rw [getXPForLevel_def]; exact Nat.sqrt_le' _

lemma lt_xpForLevel_succ_sq (L : ℕ) : 10000 * L ^ 3 < (getXPForLevel L + 1) ^ 2 := by
  rw [getXPForLevel_def]; exact Nat.lt_succ_sqrt' _

lemma xpForLevel_pos {L : ℕ} (hL : 1 ≤ L) : 1 ≤ getXPForLevel L := by
  rw [getXPForLevel_def]
  apply Nat.le_sqrt'.mpr
  have : (1:ℕ) ≤ L ^ 3 := Nat.one_le_pow _ _ (by omega)
  nlinarith

lemma xpForLevel_pred_lower {M : ℕ} :
    10000 * M ^ 3 ≤ (getXPForLevel (M + 1) - 1) ^ 2 := by
  have hs1 : 1 ≤ getXPForLevel (M + 1) := xpForLevel_pos (by omega)
  obtain ⟨t, hts⟩ : ∃ t, getXPForLevel (M + 1) = t + 1 :=
    ⟨getXPForLevel (M + 1) - 1, by omega⟩
  have hs2 : (t + 1) ^ 2 ≤ 10000 * (M + 1) ^ 3 := hts ▸ xpForLevel_sq_le (M + 1)
  have hlt : 10000 * (M + 1) ^ 3 < (t + 2) ^ 2 := by
    have h := lt_xpForLevel_succ_sq (M + 1)
    rw [hts] at h
    exact h
  rw [hts]
  simp only [Nat.add_sub_cancel]
  by_contra hneg
  push_neg at hneg
  have h4t : 10000 * (3 * M ^ 2 + 3 * M + 1) < 4 * t + 4 := by nlinarith
  have ht : 7500 * M ^ 2 + 7500 * M + 2499 ≤ t := by omega
  have hA : (7500 * M ^ 2 + 7500 * M + 2499) ^ 2 ≤ t ^ 2 :=
    Nat.pow_le_pow_left ht 2
  have hkey : 10000 * (M + 1) ^ 3 ≤ (7500 * M ^ 2 + 7500 * M + 2499) ^ 2 := by
    nlinarith [sq_nonneg M, sq_nonneg (M + 1), Nat.zero_le (M ^ 3), Nat.zero_le (M ^ 4)]
  nlinarith

lemma icbrt_cube_le' (n : ℕ) : icbrt n ^ 3 ≤ n := by
  cases h : icbrt n with
  | zero => simp
  | succ k => exact icbrt_cube_le (by omega) h

lemma lt_succ_icbrt_cube (n : ℕ) : n < (icbrt n + 1) ^ 3 := by
  by_contra h
  push_neg at h
  have := le_icbrt h
  omega

/-- Bridge: the integer-arithmetic embedding of `getXPForLevel` computes
exactly `Math.floor(100 * Math.pow(L, 1.5))` read in exact real
arithmetic. -/
theorem getXPForLevel_eq_floor (L : ℕ) :
    ⌊(100 : ℝ) * (L : ℝ) ^ (1.5 : ℝ)⌋₊ = getXPForLevel L := by
  have h : (100 : ℝ) * (L : ℝ) ^ (1.5 : ℝ) =
      Real.sqrt ((10000 * L ^ 3 : ℕ) : ℝ) := by
    have h15 : (1.5 : ℝ) = (3 : ℕ) * (1 / 2 : ℝ) := by norm_num
    have hcast : ((10000 * L ^ 3 : ℕ) : ℝ) = (100 : ℝ) ^ 2 * (L : ℝ) ^ 3 := by
      push_cast
      ring
    rw [h15, Real.rpow_mul (by positivity), Real.rpow_natCast, ← Real.sqrt_eq_rpow,
      hcast, Real.sqrt_mul (by positivity), Real.sqrt_sq (by norm_num)]
  rw [h, Real.nat_floor_real_sqrt_eq_nat_sqrt, getXPForLevel_def]

/-- Bridge: the integer-arithmetic embedding of `getLevelFromXP` computes
exactly `Math.floor(Math.pow(xp / 100, 1 / 1.5)) + 1` read in exact real
arithmetic. -/
theorem getLevelFromXP_eq_floor (x : ℕ) :
    ⌊((x : ℝ) / 100) ^ (1 / (1.5 : ℝ))⌋₊ + 1 = getLevelFromXP x := by
  have h23 : (1 / (1.5 : ℝ)) = (2 : ℝ) / 3 := by norm_num
  have hicbrt : ⌊((x : ℝ) / 100) ^ ((2 : ℝ) / 3)⌋₊ = icbrt (x ^ 2 / 10000) := by
    set y := icbrt (x ^ 2 / 10000) with hy
    have hn1 : 10000 * y ^ 3 ≤ x ^ 2 := by
      have h0 := icbrt_cube_le' (x ^ 2 / 10000)
      rw [← hy] at h0
      have := (Nat.le_div_iff_mul_le (by norm_num : (0:ℕ) < 10000)).mp h0
      omega
    have hn2 : x ^ 2 < (y + 1) ^ 3 * 10000 := by
      have h0 := lt_succ_icbrt_cube (x ^ 2 / 10000)
      rw [← hy] at h0
      exact (Nat.div_lt_iff_lt_mul (by norm_num : (0:ℕ) < 10000)).mp h0
    have hr1 : ((y : ℝ)) ^ 3 ≤ (x : ℝ) ^ 2 / 10000 := by
      rw [le_div_iff₀ (by norm_num)]
      exact_mod_cast by linarith [hn1]
    have hr2 : (x : ℝ) ^ 2 / 10000 < ((y : ℝ) + 1) ^ 3 := by
      rw [div_lt_iff₀ (by norm_num)]
      exact_mod_cast hn2
    have hznn : (0 : ℝ) ≤ ((x : ℝ) / 100) ^ ((2 : ℝ) / 3) :=
      Real.rpow_nonneg (by positivity) _
    have hz3 : (((x : ℝ) / 100) ^ ((2 : ℝ) / 3)) ^ (3 : ℕ) = (x : ℝ) ^ 2 / 10000 := by
      rw [← Real.rpow_natCast (((x : ℝ) / 100) ^ ((2 : ℝ) / 3)) 3,
        ← Real.rpow_mul (by positivity)]
      rw [show ((2 : ℝ) / 3) * (3 : ℕ) = ((2 : ℕ) : ℝ) by norm_num, Real.rpow_natCast]
      rw [div_pow]
      norm_num
    rw [Nat.floor_eq_iff hznn]
    constructor
    · by_contra hlt
      push_neg at hlt
      have hcube : (((x : ℝ) / 100) ^ ((2 : ℝ) / 3)) ^ (3 : ℕ) < (y : ℝ) ^ (3 : ℕ) := by
        apply pow_lt_pow_left₀ hlt hznn
        norm_num
      rw [hz3] at hcube
      nlinarith
    · by_contra hle
      push_neg at hle
      have hcube : ((y : ℝ) + 1) ^ (3 : ℕ) ≤
          (((x : ℝ) / 100) ^ ((2 : ℝ) / 3)) ^ (3 : ℕ) := by
        apply pow_le_pow_left₀ (by positivity) hle
      rw [hz3] at hcube
      nlinarith
  rw [h23, hicbrt]
  unfold getLevelFromXP LEVEL_BASE
  norm_num

/-! ## Claim C1 -/

/-- Claim C1 (amended): for every `L ≥ 1` the lower boundary identity
`getLevelFromXP (getXPForLevel L - 1) = L` holds, but at the threshold
itself `getLevelFromXP (getXPForLevel L)` is either `L` or `L + 1`, and
it equals `L + 1` exactly when `10000·L³` is a perfect square (that is,
when `100·L^1.5` is an integer, e.g. for perfect-square `L`); for all
other `L` the value is `L`, refuting the claimed unconditional
`getLevelFromXP (getXPForLevel L) = L + 1`. -/
theorem leveling_boundary_consistency (L : ℕ) (hL : 1 ≤ L) :
    getLevelFromXP (getXPForLevel L - 1) = L ∧
    (getLevelFromXP (getXPForLevel L) = L ∨
      getLevelFromXP (getXPForLevel L) = L + 1) ∧
    (getLevelFromXP (getXPForLevel L) = L + 1 ↔
      getXPForLevel L ^ 2 = 10000 * L ^ 3) := by
  obtain ⟨M, rfl⟩ : ∃ M, L = M + 1 := ⟨L - 1, by omega⟩
  have hs1 : 1 ≤ getXPForLevel (M + 1) := xpForLevel_pos (by omega)
  have hs2 : getXPForLevel (M + 1) ^ 2 ≤ 10000 * (M + 1) ^ 3 :=
    xpForLevel_sq_le (M + 1)
  have hlow : 10000 * M ^ 3 ≤ (getXPForLevel (M + 1) - 1) ^ 2 :=
    xpForLevel_pred_lower
  have hdef : getLevelFromXP (getXPForLevel (M + 1)) =
      icbrt (getXPForLevel (M + 1) ^ 2 / 10000) + 1 := by
    unfold getLevelFromXP LEVEL_BASE; norm_num
  have hcube : (M + 1) ^ 3 < (M + 2) ^ 3 :=
    Nat.pow_lt_pow_left (by omega) (by norm_num)
  refine ⟨?_, ?_, ?_, ?_⟩
  · -- lower boundary: `getLevelFromXP (threshold - 1) = M + 1`
    apply getLevelFromXP_eq hlow
    calc (getXPForLevel (M + 1) - 1) ^ 2
        < getXPForLevel (M + 1) ^ 2 := by
          apply Nat.pow_lt_pow_left (by omega) (by norm_num)
      _ ≤ 10000 * (M + 1) ^ 3 := hs2
  · -- the threshold value is `M + 1` or `M + 2`
    have hub : icbrt (getXPForLevel (M + 1) ^ 2 / 10000) ≤ M + 1 := by
      apply icbrt_le
      apply (Nat.div_lt_iff_lt_mul (by norm_num)).mpr
      nlinarith
    have hlb : M ≤ icbrt (getXPForLevel (M + 1) ^ 2 / 10000) := by
      apply le_icbrt
      apply (Nat.le_div_iff_mul_le (by norm_num)).mpr
      have hmono : (getXPForLevel (M + 1) - 1) ^ 2 ≤ getXPForLevel (M + 1) ^ 2 :=
        Nat.pow_le_pow_left (by omega) 2
      nlinarith
    rw [hdef]
    omega
  · -- threshold hit exactly: forward direction
    intro h
    rw [hdef] at h
    have hic : icbrt (getXPForLevel (M + 1) ^ 2 / 10000) = M + 1 := by omega
    have h3 := icbrt_cube_le (L := M + 1) (by omega) hic
    have h2 : (M + 1) ^ 3 * 10000 ≤ getXPForLevel (M + 1) ^ 2 :=
      (Nat.le_div_iff_mul_le (by norm_num)).mp h3
    nlinarith
  · -- threshold hit exactly: backward direction
    intro h
    apply getLevelFromXP_eq (le_of_eq h.symm)
    rw [h]
    nlinarith

/-- Witness for `leveling_boundary_consistency` at the concrete level `L = 1`
(where the threshold `100·1^1.5 = 100` is exact). -/
theorem leveling_boundary_consistency_witness :
    1 ≤ 1 ∧
    (getLevelFromXP (getXPForLevel 1 - 1) = 1 ∧
      (getLevelFromXP (getXPForLevel 1) = 1 ∨
        getLevelFromXP (getXPForLevel 1) = 1 + 1) ∧
      (getLevelFromXP (getXPForLevel 1) = 1 + 1 ↔
        getXPForLevel 1 ^ 2 = 10000 * 1 ^ 3)) :=
  ⟨le_refl 1, leveling_boundary_consistency 1 (le_refl 1)⟩

/-- Counterexample to claim C1 as stated: at `L = 2` the threshold is
`getXPForLevel 2 = ⌊100·2^1.5⌋ = 282`, and `getLevelFromXP 282 = 2`,
not `3`: the upper boundary identity `levelFromXP(xpThreshold(L)) = L+1`
fails for the non-square level `2`. -/
theorem leveling_boundary_cex :
    getXPForLevel 2 = 282 ∧ getLevelFromXP 282 = 2 ∧
    ¬ getLevelFromXP (getXPForLevel 2) = 2 + 1 := by
  have h : getXPForLevel 2 = 282 := by
    rw [getXPForLevel_def]
    exact sqrt_eq_of (by norm_num) (by norm_num)
  have h2 : getLevelFromXP 282 = 2 := by decide
  exact ⟨h, h2, by rw [h]; omega⟩

/-! ## Component lemmas -/

lemma handleLogActivity_some_eq {gs : UserState} {ty : String} {dur : ℕ}
    {today yest : String} {ts hr : ℕ} {rng : RollInput}
    {s' : UserState} {evs : List RewardEvent}
    (h : handleLogActivity gs ty dur today yest ts hr rng = some (s', evs)) :
    ∃ d, (allActivities gs).find? (fun a => a.type == ty) = some d ∧
      logTransition gs d ty dur today yest ts hr rng = (s', evs) := by
  unfold handleLogActivity at h
  cases hf : (allActivities gs).find? (fun a => a.type == ty) with
  | none => rw [hf] at h; cases h
  | some d => rw [hf] at h; exact ⟨d, rfl, Option.some.inj h⟩

lemma logTransition_streak (gs : UserState) (d : ActivityDef) (ty : String)
    (dur : ℕ) (today yest : String) (ts hr : ℕ) (rng : RollInput) :
    (logTransition gs d ty dur today yest ts hr rng).1.streak =
      (streakUpdate gs.streak gs.lastLoginDate today yest).1 := rfl

lemma logTransition_dailyQuests (gs : UserState) (d : ActivityDef) (ty : String)
    (dur : ℕ) (today yest : String) (ts hr : ℕ) (rng : RollInput) :
    (logTransition gs d ty dur today yest ts hr rng).1.dailyQuests =
      (dailyQuestUpdate gs.dailyQuests ty).1 := rfl

lemma logTransition_logs_len (gs : UserState) (d : ActivityDef) (ty : String)
    (dur : ℕ) (today yest : String) (ts hr : ℕ) (rng : RollInput) :
    (logTransition gs d ty dur today yest ts hr rng).1.logs.length =
      gs.logs.length + 1 := rfl

lemma streakUpdate_fst (s : ℕ) (last today yest : String) :
    (streakUpdate s last today yest).1 =
      if last = today then s else if last = yest then s + 1 else 1 := by
  simp only [streakUpdate]
  split_ifs with h1 h2 h3 <;> simp_all

lemma dailyQuestUpdate_dateStr (dq : DailyQuestState) (ty : String) :
    (dailyQuestUpdate dq ty).1.dateStr = dq.dateStr := by
  simp only [dailyQuestUpdate]
  split_ifs <;> rfl

lemma dateCheck_dailyQuests (prev : UserState) (today yest : String) :
    (dateCheck prev today yest).dailyQuests =
      if prev.dailyQuests.dateStr = today then prev.dailyQuests
      else ⟨today, [], false⟩ := by
  simp only [dateCheck]
  split_ifs <;> simp_all

/-! ## Claim C2 -/

/-- Claim C2 (amended): the wholesale replacement of the daily-quest
tracker on a date mismatch — empty completed set, unclaimed bonus, today's
date — is performed only by the mount-time date-check effect, after which
`dailyQuests.dateStr` equals today; the per-log activity transition never
rewrites `dailyQuests.dateStr` and applies its quest update to the stored
tracker as-is, even when the stored date differs from the log event's
date. -/
theorem daily_quest_rollover (prev : UserState) (today yest : String)
    (gs : UserState) (ty : String) (dur : ℕ) (today2 yest2 : String)
    (ts hr : ℕ) (rng : RollInput) (s' : UserState) (evs : List RewardEvent)
    (h : handleLogActivity gs ty dur today2 yest2 ts hr rng = some (s', evs)) :
    (dateCheck prev today yest).dailyQuests.dateStr = today ∧
    (prev.dailyQuests.dateStr ≠ today →
      (dateCheck prev today yest).dailyQuests = ⟨today, [], false⟩) ∧
    s'.dailyQuests.dateStr = gs.dailyQuests.dateStr := by
  obtain ⟨d, hf, heq⟩ := handleLogActivity_some_eq h
  have hs : s' = (logTransition gs d ty dur today2 yest2 ts hr rng).1 := by rw [heq]
  refine ⟨?_, ?_, ?_⟩
  · rw [dateCheck_dailyQuests]
    split_ifs with hd
    · exact hd
    · rfl
  · intro hd
    rw [dateCheck_dailyQuests, if_neg hd]
  · rw [hs, logTransition_dailyQuests, dailyQuestUpdate_dateStr]

/-- Witness for `daily_quest_rollover`: the stale-tracker profile, with the
concrete log attempt `handleLogActivity staleQuestState "Workout" 30 …`
evaluated to `(staleWorkoutResult, staleWorkoutEvents)`. -/
theorem daily_quest_rollover_witness :
    (dateCheck staleQuestState "2024-01-02" "2024-01-01").dailyQuests.dateStr =
      "2024-01-02" ∧
    (staleQuestState.dailyQuests.dateStr ≠ "2024-01-02" →
      (dateCheck staleQuestState "2024-01-02" "2024-01-01").dailyQuests =
        ⟨"2024-01-02", [], false⟩) ∧
    staleWorkoutResult.dailyQuests.dateStr = staleQuestState.dailyQuests.dateStr :=
  daily_quest_rollover staleQuestState "2024-01-02" "2024-01-01" staleQuestState
    "Workout" 30 "2024-01-02" "2024-01-01" 0 12 rngHalf
    staleWorkoutResult staleWorkoutEvents rfl

/-- Counterexample to claim C2 as stated: logging `"Workout"` on
`"2024-01-02"` against a tracker still dated `"2024-01-01"` leaves the
tracker dated `"2024-01-01"` and merges into yesterday's completed set
(`["Reading"]` becomes `["Reading", "Workout"]`) instead of replacing it:
the per-log transition performs no day rollover. -/
theorem daily_quest_rollover_cex :
    staleQuestState.dailyQuests.dateStr = "2024-01-01" ∧
    resultQuestDate (handleLogActivity staleQuestState "Workout" 30 "2024-01-02"
      "2024-01-01" 0 12 rngHalf) = some "2024-01-01" ∧
    resultQuestCompleted (handleLogActivity staleQuestState "Workout" 30 "2024-01-02"
      "2024-01-01" 0 12 rngHalf) = some ["Reading", "Workout"] ∧
    "2024-01-01" ≠ "2024-01-02" :=
  ⟨rfl, rfl, rfl, by decide⟩

/-! ## Claim C3 -/

/-- Claim C3 (amended): `handleAddCustomActivity` appends the submitted
definition unconditionally — there is no identifier-collision check and no
`DuplicateActivity` error in the source — so even a definition whose
identifier equals an existing built-in or custom identifier is accepted and
`customActivities` always changes (grows by exactly that entry). -/
theorem addCustomActivity_appends (gs : UserState) (activity : CustomActivity) :
    (handleAddCustomActivity gs activity).customActivities =
      gs.customActivities ++ [activity] ∧
    activity ∈ (handleAddCustomActivity gs activity).customActivities ∧
    (handleAddCustomActivity gs activity).customActivities ≠ gs.customActivities := by
  refine ⟨rfl, by simp [handleAddCustomActivity], ?_⟩
  intro hcontra
  have hlen := congrArg List.length hcontra
  simp [handleAddCustomActivity] at hlen

/-- Counterexample to claim C3 as stated: adding a custom activity named
`"Workout"` — an existing built-in identifier — succeeds and changes
`customActivities` from `[]` to `[workoutCustom]` instead of failing with
`DuplicateActivity` and leaving it unchanged. -/
theorem addCustomActivity_duplicate_cex :
    (DEFAULT_ACTIVITIES.map ActivityDef.type).contains "Workout" = true ∧
    workoutCustom.name = "Workout" ∧
    (handleAddCustomActivity INITIAL_STATE workoutCustom).customActivities =
      [workoutCustom] ∧
    INITIAL_STATE.customActivities = [] := by
  refine ⟨by decide, rfl, rfl, rfl⟩

/-! ## Claim C4 -/

/-- Claim C4: the streak transition of one logged activity: unchanged when
`lastLoginDate` is today (a second log the same day does not increment),
incremented by exactly 1 when `lastLoginDate` is yesterday, and reset to
exactly 1 (not 0) otherwise — a gap of two or more days, or no prior
date. -/
theorem streak_transition (gs : UserState) (ty : String) (dur : ℕ)
    (today yest : String) (ts hr : ℕ) (rng : RollInput)
    (s' : UserState) (evs : List RewardEvent)
    (h : handleLogActivity gs ty dur today yest ts hr rng = some (s', evs)) :
    s'.streak = if gs.lastLoginDate = today then gs.streak
      else if gs.lastLoginDate = yest then gs.streak + 1 else 1 := by
  obtain ⟨d, hf, heq⟩ := handleLogActivity_some_eq h
  have hs : s' = (logTransition gs d ty dur today yest ts hr rng).1 := by rw [heq]
  rw [hs, logTransition_streak, streakUpdate_fst]

/-- Witness for `streak_transition`: a fresh profile (no prior date) logging
`"Workout"`; the result, evaluated definitionally, has streak exactly 1. -/
theorem streak_transition_witness :
    staleWorkoutResult.streak =
      if staleQuestState.lastLoginDate = "2024-01-02" then staleQuestState.streak
      else if staleQuestState.lastLoginDate = "2024-01-01" then
        staleQuestState.streak + 1
      else 1 :=
  streak_transition staleQuestState "Workout" 30 "2024-01-02" "2024-01-01" 0 12
    rngHalf staleWorkoutResult staleWorkoutEvents rfl

/-! ## Claim C7 -/

/-- Claim C7 (amended): `handleLogActivity` performs no duration validation
and no `InvalidDuration` error exists in the source: for any duration,
including the non-positive `0`, once the activity identifier resolves the
transition proceeds and mutates the profile (a log entry is appended and
`Discipline` grows by at least the unconditional `+5`). Positivity of the
duration is enforced only by the UI input handler (`if (val > 0)` in the
log modal), outside the engine. -/
theorem no_duration_validation (gs : UserState) (ty : String) (dur : ℕ)
    (today yest : String) (ts hr : ℕ) (rng : RollInput) (d : ActivityDef)
    (hfind : (allActivities gs).find? (fun a => a.type == ty) = some d) :
    handleLogActivity gs ty dur today yest ts hr rng =
      some (logTransition gs d ty dur today yest ts hr rng) ∧
    (logTransition gs d ty dur today yest ts hr rng).1.logs.length =
      gs.logs.length + 1 ∧
    gs.stats.Discipline + 5 ≤
      (logTransition gs d ty dur today yest ts hr rng).1.stats.Discipline := by
  refine ⟨?_, rfl, ?_⟩
  · unfold handleLogActivity
    rw [hfind]
  · show gs.stats.Discipline + 5 ≤
      (addStat (addStat gs.stats d.stat
        (calculateXP d.baseXP d.baseDuration dur)) StatType.Discipline 5).Discipline
    cases hst : d.stat <;> simp [addStat]

/-- Witness for `no_duration_validation` at the non-positive duration `0`:
the transition succeeds and appends a log entry. -/
theorem no_duration_validation_witness :
    handleLogActivity INITIAL_STATE "Workout" 0 "2024-01-02" "2024-01-01" 0 12
      rngHalf =
      some (logTransition INITIAL_STATE workoutDef "Workout" 0 "2024-01-02"
        "2024-01-01" 0 12 rngHalf) ∧
    (logTransition INITIAL_STATE workoutDef "Workout" 0 "2024-01-02" "2024-01-01"
      0 12 rngHalf).1.logs.length = INITIAL_STATE.logs.length + 1 ∧
    INITIAL_STATE.stats.Discipline + 5 ≤
      (logTransition INITIAL_STATE workoutDef "Workout" 0 "2024-01-02" "2024-01-01"
        0 12 rngHalf).1.stats.Discipline :=
  no_duration_validation INITIAL_STATE "Workout" 0 "2024-01-02" "2024-01-01" 0 12
    rngHalf workoutDef rfl

/-- Counterexample to claim C7 as stated: a log with the non-positive
duration `0` is not rejected — the profile is mutated (the log list grows
from 0 to 1 entries). -/
theorem no_duration_validation_cex :
    resultLogsCount (handleLogActivity INITIAL_STATE "Workout" 0 "2024-01-02"
      "2024-01-01" 0 12 rngHalf) = some 1 ∧
    INITIAL_STATE.logs.length = 0 :=
  ⟨rfl, rfl⟩

/-! ## Claim C5 -/

lemma Frac.floorMul_lt {a : Frac} (hv : a.Valid) {n : ℕ} (hn : 0 < n) :
    a.floorMul n < n := by
  unfold Frac.floorMul
  apply (Nat.div_lt_iff_lt_mul hv.1).mpr
  have h2 := hv.2
  nlinarith

/-- Claim C5: with the uniform draw `r = num/den ∈ [0,1)` taken as an
input, the roll block classifies exactly as specified: `r < 0.10` doubles
the earned XP and emits one Critical event; `0.10 ≤ r < 0.25` adds an
integer bonus in `[10,29]` and emits one Bonus event; `0.25 ≤ r < 0.30`
selects one item of the fixed loot table with no XP change and emits one
Loot event; `r ≥ 0.30` produces nothing, and at most one roll reward is
produced per log event. (`r < 10/100` is the exact cross-multiplied
`num·100 < 10·den`.) -/
theorem roll_reward_classification (baseXP : ℕ) (rng : RollInput)
    (hv : rng.Valid) :
    (rollRewards baseXP rng).2.2.length ≤ 1 ∧
    (rng.roll.num * 100 < 10 * rng.roll.den →
      rollRewards baseXP rng = (baseXP * 2, true,
        [⟨RewardType.CRITICAL, "Critical Success! XP Doubled!", some (baseXP * 2), none⟩])) ∧
    (10 * rng.roll.den ≤ rng.roll.num * 100 →
      rng.roll.num * 100 < 25 * rng.roll.den →
      ∃ b, 10 ≤ b ∧ b ≤ 29 ∧ rollRewards baseXP rng = (baseXP + b, false,
        [⟨RewardType.BONUS, "Bonus Focus!", some b, none⟩])) ∧
    (25 * rng.roll.den ≤ rng.roll.num * 100 →
      rng.roll.num * 100 < 30 * rng.roll.den →
      ∃ item, item ∈ LOOT_TABLE ∧ rollRewards baseXP rng = (baseXP, false,
        [⟨RewardType.ITEM, "You found an item!", none, some item⟩])) ∧
    (30 * rng.roll.den ≤ rng.roll.num * 100 →
      rollRewards baseXP rng = (baseXP, false, [])) := by
  have hb : rng.bonusRoll.floorMul 20 < 20 := Frac.floorMul_lt hv.2.1 (by norm_num)
  have hidx : rng.lootRoll.floorMul LOOT_TABLE.length < LOOT_TABLE.length :=
    Frac.floorMul_lt hv.2.2 (by norm_num [LOOT_TABLE])
  have hmem : LOOT_TABLE.getD (rng.lootRoll.floorMul LOOT_TABLE.length) "" ∈ LOOT_TABLE := by
    rw [List.getD_eq_getElem LOOT_TABLE "" hidx]
    exact List.getElem_mem hidx
  refine ⟨?_, ?_, ?_, ?_, ?_⟩
  · simp only [rollRewards, Frac.lt]
    split_ifs <;> simp
  · intro c1
    simp only [rollRewards, Frac.lt]
    rw [if_pos (decide_eq_true c1)]
  · intro c2a c2b
    refine ⟨rng.bonusRoll.floorMul 20 + 10, by omega, by omega, ?_⟩
    simp only [rollRewards, Frac.lt]
    rw [if_neg (by simp only [decide_eq_true_eq]; omega),
      if_pos (decide_eq_true c2b)]
  · intro c3a c3b
    refine ⟨_, hmem, ?_⟩
    simp only [rollRewards, Frac.lt]
    rw [if_neg (by simp only [decide_eq_true_eq]; omega),
      if_neg (by simp only [decide_eq_true_eq]; omega),
      if_pos (decide_eq_true c3b)]
  · intro c4
    simp only [rollRewards, Frac.lt]
    rw [if_neg (by simp only [decide_eq_true_eq]; omega),
      if_neg (by simp only [decide_eq_true_eq]; omega),
      if_neg (by simp only [decide_eq_true_eq]; omega)]

/-- Witness for `roll_reward_classification` at the concrete draw
`r = 1/20 < 0.10` with base XP 40. -/
theorem roll_reward_classification_witness :
    RollInput.Valid rng20 ∧
    ((rollRewards 40 rng20).2.2.length ≤ 1 ∧
    (rng20.roll.num * 100 < 10 * rng20.roll.den →
      rollRewards 40 rng20 = (40 * 2, true,
        [⟨RewardType.CRITICAL, "Critical Success! XP Doubled!", some (40 * 2), none⟩])) ∧
    (10 * rng20.roll.den ≤ rng20.roll.num * 100 →
      rng20.roll.num * 100 < 25 * rng20.roll.den →
      ∃ b, 10 ≤ b ∧ b ≤ 29 ∧ rollRewards 40 rng20 = (40 + b, false,
        [⟨RewardType.BONUS, "Bonus Focus!", some b, none⟩])) ∧
    (25 * rng20.roll.den ≤ rng20.roll.num * 100 →
      rng20.roll.num * 100 < 30 * rng20.roll.den →
      ∃ item, item ∈ LOOT_TABLE ∧ rollRewards 40 rng20 = (40, false,
        [⟨RewardType.ITEM, "You found an item!", none, some item⟩])) ∧
    (30 * rng20.roll.den ≤ rng20.roll.num * 100 →
      rollRewards 40 rng20 = (40, false, []))) :=
  ⟨by decide, roll_reward_classification 40 rng20 (by decide)⟩

/-! ## Counting reward events -/

lemma countType_append (t : RewardType) (a b : List RewardEvent) :
    countType t (a ++ b) = countType t a + countType t b := by
  simp [countType]

lemma countType_eq_zero {t : RewardType} {l : List RewardEvent}
    (h : ∀ e ∈ l, e.type ≠ t) : countType t l = 0 := by
  simp only [countType, List.length_eq_zero, List.filter_eq_nil_iff]
  intro e he
  simpa using h e he

lemma rollRewards_events (b : ℕ) (rng : RollInput) :
    ∀ e ∈ (rollRewards b rng).2.2, e.type = RewardType.CRITICAL ∨
      e.type = RewardType.BONUS ∨ e.type = RewardType.ITEM := by
  simp only [rollRewards]
  split_ifs <;> intro e he <;>
    simp only [List.mem_singleton, List.not_mem_nil] at he <;> simp [he]

lemma streakUpdate_events (s : ℕ) (last today yest : String) :
    ∀ e ∈ (streakUpdate s last today yest).2.2, e.type = RewardType.BONUS := by
  simp only [streakUpdate]
  split_ifs <;> intro e he <;>
    simp only [List.mem_singleton, List.not_mem_nil] at he <;> simp [he]

lemma dailyQuestUpdate_events (dq : DailyQuestState) (ty : String) :
    ∀ e ∈ (dailyQuestUpdate dq ty).2.2, e.type = RewardType.QUEST_COMPLETE := by
  simp only [dailyQuestUpdate]
  split_ifs <;> intro e he <;>
    simp only [List.mem_singleton, List.not_mem_nil] at he <;>
    simp [he]

lemma achFold_bonus (achs : List Achievement) (tstate : UserState) (nl : Log)
    (d : String) (hr : ℕ) (acc : List String × List RewardEvent)
    (hacc : ∀ e ∈ acc.2, e.type = RewardType.BONUS) :
    ∀ e ∈ (achs.foldl (achStep tstate nl d hr) acc).2, e.type = RewardType.BONUS := by
  induction achs generalizing acc with
  | nil => simpa using hacc
  | cons a rest ih =>
    simp only [List.foldl_cons]
    apply ih
    unfold achStep
    split_ifs with hc
    · intro e he
      rcases List.mem_append.mp he with h1 | h1
      · exact hacc e h1
      · rw [List.mem_singleton] at h1; subst h1; rfl
    · exact hacc

lemma applyAchievements_bonus (u : List String) (tstate : UserState) (nl : Log)
    (d : String) (hr : ℕ) :
    ∀ e ∈ (applyAchievements u tstate nl d hr).2, e.type = RewardType.BONUS :=
  achFold_bonus _ _ _ _ _ _ (by simp)

lemma rollRewards_countLU (b : ℕ) (rng : RollInput) :
    countType RewardType.LEVEL_UP (rollRewards b rng).2.2 = 0 :=
  countType_eq_zero (fun e he => by
    rcases rollRewards_events b rng e he with h | h | h <;> simp [h])

lemma rollRewards_countQC (b : ℕ) (rng : RollInput) :
    countType RewardType.QUEST_COMPLETE (rollRewards b rng).2.2 = 0 :=
  countType_eq_zero (fun e he => by
    rcases rollRewards_events b rng e he with h | h | h <;> simp [h])

lemma streakUpdate_countLU (s : ℕ) (last today yest : String) :
    countType RewardType.LEVEL_UP (streakUpdate s last today yest).2.2 = 0 :=
  countType_eq_zero (fun e he => by
    rw [streakUpdate_events s last today yest e he]; simp)

lemma streakUpdate_countQC (s : ℕ) (last today yest : String) :
    countType RewardType.QUEST_COMPLETE (streakUpdate s last today yest).2.2 = 0 :=
  countType_eq_zero (fun e he => by
    rw [streakUpdate_events s last today yest e he]; simp)

lemma dailyQuestUpdate_countLU (dq : DailyQuestState) (ty : String) :
    countType RewardType.LEVEL_UP (dailyQuestUpdate dq ty).2.2 = 0 :=
  countType_eq_zero (fun e he => by
    rw [dailyQuestUpdate_events dq ty e he]; simp)

lemma applyAchievements_countLU (u : List String) (tstate : UserState) (nl : Log)
    (d : String) (hr : ℕ) :
    countType RewardType.LEVEL_UP (applyAchievements u tstate nl d hr).2 = 0 :=
  countType_eq_zero (fun e he => by
    rw [applyAchievements_bonus u tstate nl d hr e he]; simp)

lemma applyAchievements_countQC (u : List String) (tstate : UserState) (nl : Log)
    (d : String) (hr : ℕ) :
    countType RewardType.QUEST_COMPLETE (applyAchievements u tstate nl d hr).2 = 0 :=
  countType_eq_zero (fun e he => by
    rw [applyAchievements_bonus u tstate nl d hr e he]; simp)

lemma logTransition_countLU (gs : UserState) (d : ActivityDef) (ty : String)
    (dur : ℕ) (today yest : String) (ts hr : ℕ) (rng : RollInput) :
    countType RewardType.LEVEL_UP (logTransition gs d ty dur today yest ts hr rng).2 =
      if gs.level < (logTransition gs d ty dur today yest ts hr rng).1.level
      then 1 else 0 := by
  simp only [logTransition]
  rw [countType_append, countType_append, countType_append, countType_append,
    rollRewards_countLU, streakUpdate_countLU, dailyQuestUpdate_countLU,
    applyAchievements_countLU]
  split_ifs <;> simp [countType]

/-! ## Claim C8 -/

lemma logTransition_LU_xp (gs : UserState) (d : ActivityDef) (ty : String)
    (dur : ℕ) (today yest : String) (ts hr : ℕ) (rng : RollInput) :
    ∀ e ∈ (logTransition gs d ty dur today yest ts hr rng).2,
      e.type = RewardType.LEVEL_UP → e.xp = none := by
  simp only [logTransition]
  intro e he het
  rcases List.mem_append.mp he with h4 | hach
  · rcases List.mem_append.mp h4 with h3 | hlev
    · rcases List.mem_append.mp h3 with h2 | hstr
      · rcases List.mem_append.mp h2 with hrl | hstk
        · rcases rollRewards_events _ _ e hrl with hh | hh | hh <;>
            rw [het] at hh <;> simp at hh
        · have hh := streakUpdate_events _ _ _ _ e hstk
          rw [het] at hh; simp at hh
      · have hh := dailyQuestUpdate_events _ _ e hstr
        rw [het] at hh; simp at hh
    · revert hlev
      split_ifs with hcond <;> intro hlev
      · rw [List.mem_singleton] at hlev; subst hlev; rfl
      · simp at hlev
  · have hh := applyAchievements_bonus _ _ _ _ _ e hach
    rw [het] at hh; simp at hh

/-- Claim C8: after a successful activity-log transition the level is
recomputed as `getLevelFromXP` of the new total XP, exactly one `LEVEL_UP`
reward event — carrying no XP amount — is appended iff the level
increased, and none otherwise. (The scenario `totalXP 99 + 1 ⇒ totalXP
100, level 2, one LevelUp event` is the witness below.) -/
theorem level_recompute_and_event (gs : UserState) (ty : String) (dur : ℕ)
    (today yest : String) (ts hr : ℕ) (rng : RollInput)
    (s' : UserState) (evs : List RewardEvent)
    (h : handleLogActivity gs ty dur today yest ts hr rng = some (s', evs)) :
    s'.level = getLevelFromXP s'.totalXP ∧
    countType RewardType.LEVEL_UP evs = (if gs.level < s'.level then 1 else 0) ∧
    ∀ e ∈ evs, e.type = RewardType.LEVEL_UP → e.xp = none := by
  obtain ⟨d, hf, heq⟩ := handleLogActivity_some_eq h
  have hs : s' = (logTransition gs d ty dur today yest ts hr rng).1 := by rw [heq]
  have he : evs = (logTransition gs d ty dur today yest ts hr rng).2 := by rw [heq]
  refine ⟨?_, ?_, ?_⟩
  · rw [hs]; rfl
  · rw [hs, he, logTransition_countLU]
  · rw [he]; exact logTransition_LU_xp gs d ty dur today yest ts hr rng

/-- Witness for `level_recompute_and_event`: the profile at `totalXP = 99`
logging 1 minute of Meditation (earning exactly 1 XP, all bonuses
suppressed) reaches `totalXP = 100`, the level recomputes from 1 to
`getLevelFromXP 100 = 2`, and exactly one `LEVEL_UP` event is emitted. -/
theorem level_recompute_and_event_witness :
    handleLogActivity state99 "Meditation" 1 "2024-01-02" "2024-01-01" 0 12 rngHalf =
      some (med99Result, med99Events) ∧
    state99.totalXP = 99 ∧ state99.level = 1 ∧
    med99Result.totalXP = 100 ∧ med99Result.level = 2 ∧
    med99Result.level = getLevelFromXP med99Result.totalXP ∧
    countType RewardType.LEVEL_UP med99Events =
      (if state99.level < med99Result.level then 1 else 0) := by
  have h := level_recompute_and_event state99 "Meditation" 1 "2024-01-02"
    "2024-01-01" 0 12 rngHalf med99Result med99Events rfl
  exact ⟨rfl, rfl, rfl, rfl, rfl, h.1, h.2.1⟩

/-! ## Claim C10 -/

lemma step_xp_eq (s : UserState) (i : LogInput) (h : s.currentXP = s.totalXP) :
    (step s i).1.currentXP = (step s i).1.totalXP := by
  unfold step
  cases hh : handleLogActivity s i.type i.duration i.todayStr i.yesterday
      i.timestamp i.hour i.rng with
  | none => simpa using h
  | some r =>
    obtain ⟨s', evs⟩ := r
    obtain ⟨d, hf, heq⟩ := handleLogActivity_some_eq hh
    have hs : s' = (logTransition s d i.type i.duration i.todayStr i.yesterday
        i.timestamp i.hour i.rng).1 := by rw [heq]
    show s'.currentXP = s'.totalXP
    rw [hs]
    simp only [logTransition]
    omega

lemma runLogs_xp_eq (l : List LogInput) :
    ∀ s : UserState, s.currentXP = s.totalXP →
      (runLogs s l).1.currentXP = (runLogs s l).1.totalXP := by
  induction l with
  | nil => intro s h; simpa using h
  | cons i rest ih =>
    intro s h
    simp only [runLogs]
    exact ih _ (step_xp_eq s i h)

/-- Claim C10 (implicit): in every profile state reachable from the initial
state by activity-log transitions, `currentXP = totalXP`: both start at 0
and every transition adds the same earned-XP amount to each. -/
theorem currentXP_eq_totalXP (inputs : List LogInput) :
    (runLogs INITIAL_STATE inputs).1.currentXP =
      (runLogs INITIAL_STATE inputs).1.totalXP :=
  runLogs_xp_eq inputs INITIAL_STATE rfl

/-! ## Claim C9 -/

lemma achFold_nodup (achs : List Achievement) (tstate : UserState) (nl : Log)
    (d : String) (hr : ℕ) (acc : List String × List RewardEvent)
    (hacc : acc.1.Nodup) :
    ((achs.foldl (achStep tstate nl d hr) acc).1).Nodup := by
  induction achs generalizing acc with
  | nil => simpa using hacc
  | cons a rest ih =>
    simp only [List.foldl_cons]
    apply ih
    unfold achStep
    split_ifs with hc
    · simp at hc
      rw [List.nodup_append]
      refine ⟨hacc, List.nodup_singleton _, ?_⟩
      intro x hx hx2
      rw [List.mem_singleton] at hx2
      subst hx2
      exact hc.1 hx
    · exact hacc

lemma applyAchievements_nodup (u : List String) (tstate : UserState) (nl : Log)
    (d : String) (hr : ℕ) (h : u.Nodup) :
    ((applyAchievements u tstate nl d hr).1).Nodup :=
  achFold_nodup _ _ _ _ _ _ (by simpa)

lemma step_nodup (s : UserState) (i : LogInput)
    (h : s.unlockedAchievements.Nodup) :
    ((step s i).1.unlockedAchievements).Nodup := by
  unfold step
  cases hh : handleLogActivity s i.type i.duration i.todayStr i.yesterday
      i.timestamp i.hour i.rng with
  | none => simpa using h
  | some r =>
    obtain ⟨s', evs⟩ := r
    obtain ⟨d, hf, heq⟩ := handleLogActivity_some_eq hh
    have hs : s' = (logTransition s d i.type i.duration i.todayStr i.yesterday
        i.timestamp i.hour i.rng).1 := by rw [heq]
    show (s'.unlockedAchievements).Nodup
    rw [hs]
    exact applyAchievements_nodup _ _ _ _ _ h

lemma runLogs_nodup (l : List LogInput) :
    ∀ s : UserState, s.unlockedAchievements.Nodup →
      ((runLogs s l).1.unlockedAchievements).Nodup := by
  induction l with
  | nil => intro s h; simpa using h
  | cons i rest ih =>
    intro s h
    simp only [runLogs]
    exact ih _ (step_nodup s i h)

/-- Claim C9: along every sequence of activity-log transitions from the
initial state, `unlockedAchievements` never holds a duplicate id: the
achievement loop appends an id only when it is not already present
(including ids pushed earlier in the same loop), so an achievement, once
recorded, is never recorded again. -/
theorem achievements_nodup (inputs : List LogInput) :
    ((runLogs INITIAL_STATE inputs).1.unlockedAchievements).Nodup :=
  runLogs_nodup inputs INITIAL_STATE (by simp [INITIAL_STATE])

/-! ## Claim C6 -/

lemma questEmit_true_iff (dq : DailyQuestState) (ty : String) :
    questEmit dq ty = true ↔
      ((DAILY_QUESTS.any (fun q => q.type == ty) && !dq.completed.contains ty) = true ∧
        ((dq.completed ++ [ty]).length == 4 && !dq.bonusClaimed) = true) := by
  simp only [questEmit, Bool.and_eq_true, beq_iff_eq, List.length_append,
    List.length_singleton]
  constructor
  · rintro ⟨⟨⟨ha, hb⟩, hlen⟩, hcl⟩
    exact ⟨⟨ha, hb⟩, by omega, hcl⟩
  · rintro ⟨⟨ha, hb⟩, hlen, hcl⟩
    exact ⟨⟨⟨ha, hb⟩, by omega⟩, hcl⟩

lemma questEmit_false_of_claimed {dq : DailyQuestState}
    (h : dq.bonusClaimed = true) (ty : String) : questEmit dq ty = false := by
  simp [questEmit, h]

lemma questEmit_eq_false_left {dq : DailyQuestState} {ty : String}
    (h1 : ¬ ((DAILY_QUESTS.any (fun q => q.type == ty) &&
      !dq.completed.contains ty) = true)) : questEmit dq ty = false := by
  cases hq : questEmit dq ty
  · rfl
  · exact absurd ((questEmit_true_iff dq ty).mp hq).1 h1

lemma questEmit_eq_false_right {dq : DailyQuestState} {ty : String}
    (h2 : ¬ (((dq.completed ++ [ty]).length == 4 && !dq.bonusClaimed) = true)) :
    questEmit dq ty = false := by
  cases hq : questEmit dq ty
  · rfl
  · exact absurd ((questEmit_true_iff dq ty).mp hq).2 h2

lemma dailyQuestUpdate_countQC (dq : DailyQuestState) (ty : String) :
    countType RewardType.QUEST_COMPLETE (dailyQuestUpdate dq ty).2.2 =
      if questEmit dq ty then 1 else 0 := by
  by_cases h1 : (DAILY_QUESTS.any (fun q => q.type == ty) &&
      !dq.completed.contains ty) = true
  · by_cases h2 : ((dq.completed ++ [ty]).length == 4 && !dq.bonusClaimed) = true
    · rw [(questEmit_true_iff dq ty).mpr ⟨h1, h2⟩]
      simp only [dailyQuestUpdate]
      rw [if_pos h1, if_pos h2]
      simp [countType]
    · rw [questEmit_eq_false_right h2]
      simp only [dailyQuestUpdate]
      rw [if_pos h1, if_neg h2]
      simp [countType]
  · rw [questEmit_eq_false_left h1]
    simp only [dailyQuestUpdate]
    rw [if_neg h1]
    simp [countType]

lemma dailyQuestUpdate_claimed (dq : DailyQuestState) (ty : String) :
    (dailyQuestUpdate dq ty).1.bonusClaimed =
      (dq.bonusClaimed || questEmit dq ty) := by
  by_cases h1 : (DAILY_QUESTS.any (fun q => q.type == ty) &&
      !dq.completed.contains ty) = true
  · by_cases h2 : ((dq.completed ++ [ty]).length == 4 && !dq.bonusClaimed) = true
    · rw [(questEmit_true_iff dq ty).mpr ⟨h1, h2⟩]
      simp only [dailyQuestUpdate]
      rw [if_pos h1, if_pos h2]
      simp
    · rw [questEmit_eq_false_right h2]
      simp only [dailyQuestUpdate]
      rw [if_pos h1, if_neg h2]
      simp
  · rw [questEmit_eq_false_left h1]
    simp only [dailyQuestUpdate]
    rw [if_neg h1]
    simp

lemma logTransition_countQC (gs : UserState) (d : ActivityDef) (ty : String)
    (dur : ℕ) (today yest : String) (ts hr : ℕ) (rng : RollInput) :
    countType RewardType.QUEST_COMPLETE (logTransition gs d ty dur today yest ts hr rng).2 =
      if questEmit gs.dailyQuests ty then 1 else 0 := by
  simp only [logTransition]
  rw [countType_append, countType_append, countType_append, countType_append,
    rollRewards_countQC, streakUpdate_countQC, dailyQuestUpdate_countQC,
    applyAchievements_countQC]
  split_ifs <;> simp [countType]

lemma logTransition_claimed (gs : UserState) (d : ActivityDef) (ty : String)
    (dur : ℕ) (today yest : String) (ts hr : ℕ) (rng : RollInput) :
    (logTransition gs d ty dur today yest ts hr rng).1.dailyQuests.bonusClaimed =
      (gs.dailyQuests.bonusClaimed || questEmit gs.dailyQuests ty) := by
  rw [logTransition_dailyQuests, dailyQuestUpdate_claimed]

lemma step_countQC (s : UserState) (i : LogInput) :
    countType RewardType.QUEST_COMPLETE (step s i).2 +
      questPotential (step s i).1.dailyQuests ≤ questPotential s.dailyQuests := by
  unfold step
  cases hh : handleLogActivity s i.type i.duration i.todayStr i.yesterday
      i.timestamp i.hour i.rng with
  | none => simp [countType]
  | some r =>
    obtain ⟨s', evs⟩ := r
    obtain ⟨d, hf, heq⟩ := handleLogActivity_some_eq hh
    have hs : s' = (logTransition s d i.type i.duration i.todayStr i.yesterday
        i.timestamp i.hour i.rng).1 := by rw [heq]
    have he : evs = (logTransition s d i.type i.duration i.todayStr i.yesterday
        i.timestamp i.hour i.rng).2 := by rw [heq]
    show countType RewardType.QUEST_COMPLETE evs +
      questPotential s'.dailyQuests ≤ questPotential s.dailyQuests
    rw [he, hs, logTransition_countQC]
    unfold questPotential
    rw [logTransition_claimed]
    cases hb : s.dailyQuests.bonusClaimed with
    | true =>
      rw [questEmit_false_of_claimed hb]
      simp
    | false =>
      cases hq : questEmit s.dailyQuests i.type <;> simp

lemma runLogs_countQC (l : List LogInput) :
    ∀ s : UserState, countType RewardType.QUEST_COMPLETE (runLogs s l).2 ≤
      questPotential s.dailyQuests := by
  induction l with
  | nil =>
    intro s
    show countType RewardType.QUEST_COMPLETE [] ≤ questPotential s.dailyQuests
    simp [countType]
  | cons i rest ih =>
    intro s
    simp only [runLogs, countType_append]
    calc countType RewardType.QUEST_COMPLETE (step s i).2 +
          countType RewardType.QUEST_COMPLETE (runLogs (step s i).1 rest).2
        ≤ countType RewardType.QUEST_COMPLETE (step s i).2 +
          questPotential (step s i).1.dailyQuests := by
          have := ih (step s i).1
          omega
      _ ≤ questPotential s.dailyQuests := step_countQC s i

/-- Claim C6: the +80 `QUEST_COMPLETE` reward is emitted on a transition
iff that transition adds the 4th distinct quest-type activity while the
bonus is unclaimed (`questEmit`), the transition then marks the bonus
claimed; and across any sequence of logged activities sharing one
calendar date the event is produced at most once (never for a 5th log of
an already-completed quest type, and never again once claimed). -/
theorem quest_bonus_once :
    (∀ (gs : UserState) (ty : String) (dur : ℕ) (today yest : String)
      (ts hr : ℕ) (rng : RollInput) (s' : UserState) (evs : List RewardEvent),
      handleLogActivity gs ty dur today yest ts hr rng = some (s', evs) →
      countType RewardType.QUEST_COMPLETE evs =
        (if questEmit gs.dailyQuests ty then 1 else 0) ∧
      s'.dailyQuests.bonusClaimed =
        (gs.dailyQuests.bonusClaimed || questEmit gs.dailyQuests ty)) ∧
    (∀ (s0 : UserState) (inputs : List LogInput) (day : String),
      (∀ i ∈ inputs, i.todayStr = day) →
      countType RewardType.QUEST_COMPLETE (runLogs s0 inputs).2 ≤
        questPotential s0.dailyQuests) := by
  constructor
  · intro gs ty dur today yest ts hr rng s' evs h
    obtain ⟨d, hf, heq⟩ := handleLogActivity_some_eq h
    have hs : s' = (logTransition gs d ty dur today yest ts hr rng).1 := by rw [heq]
    have he : evs = (logTransition gs d ty dur today yest ts hr rng).2 := by rw [heq]
    exact ⟨by rw [he, logTransition_countQC],
      by rw [hs, logTransition_claimed]⟩
  · intro s0 inputs day hday
    exact runLogs_countQC inputs s0

/-- Witness for `quest_bonus_once`: logging Meditation as the 4th distinct
quest type emits exactly one `QUEST_COMPLETE` event and claims the bonus,
and a same-day two-log sequence emits at most one in total. -/
theorem quest_bonus_once_witness :
    handleLogActivity state3 "Meditation" 15 "2024-01-02" "2024-01-01" 0 12 rngHalf =
      some (quest4Result, quest4Events) ∧
    questEmit state3.dailyQuests "Meditation" = true ∧
    countType RewardType.QUEST_COMPLETE quest4Events = 1 ∧
    quest4Result.dailyQuests.bonusClaimed = true ∧
    countType RewardType.QUEST_COMPLETE (runLogs state3 [medInput, medInput]).2 ≤
      questPotential state3.dailyQuests := by
  have h1 := quest_bonus_once.1 state3 "Meditation" 15 "2024-01-02" "2024-01-01"
    0 12 rngHalf quest4Result quest4Events rfl
  have h2 := quest_bonus_once.2 state3 [medInput, medInput] "2024-01-02" (by decide)
  refine ⟨rfl, by decide, ?_, ?_, h2⟩
  · rw [h1.1]
    decide
  · rw [h1.2]
    decide
